import Mathlib

/-!
Shallow embedding of `src/index.ts` (time-fun-scraper): a three-stage
scraping pipeline (category listing discovery, per-entity detail
extraction, report aggregation).  JS numbers are modelled as `ℚ`;
`undefined`/`null` record fields as `Option`; the browser-automation
engine and the file system are modelled at the interface boundary of
spec §6 (DOM query results and directory contents are explicit inputs,
file writes are explicit outputs).
-/

/-! ### JS string and number primitives -/

/-- Decimal digit character for a digit value `d < 10` (clamps to `'9'`). -/
def digitChar10 (d : ℕ) : Char :=
  if d = 0 then '0' else if d = 1 then '1' else if d = 2 then '2'
  else if d = 3 then '3' else if d = 4 then '4' else if d = 5 then '5'
  else if d = 6 then '6' else if d = 7 then '7' else if d = 8 then '8' else '9'

/-- Most-significant-first decimal digits of `n`, with explicit fuel so the
recursion is structural (fuel `n + 1` is always enough since a number has
at most as many digits as its value when positive). -/
def natDecimalAux : ℕ → ℕ → List Char
  | 0, _ => []
  | fuel + 1, n => if n = 0 then [] else natDecimalAux fuel (n / 10) ++ [digitChar10 (n % 10)]

/-- Decimal digit list of a natural number; `0` renders as `"0"`. -/
def natDigits (n : ℕ) : List Char :=
  if n = 0 then ['0'] else natDecimalAux (n + 1) n

/-- Models the JS default `ToString` of a nonnegative integer number,
as used by the template interpolation of `totalCreators`. -/
def natDecimalStr (n : ℕ) : String :=
  String.mk (natDigits n)

/-- Insert a `','` before every digit whose 0-based index (counted from the
least-significant digit, which comes first in the input) is a positive
multiple of 3.  Input and output are least-significant-first. -/
def groupRevAux : List Char → ℕ → List Char
  | [], _ => []
  | c :: rest, k =>
    (if k ≠ 0 ∧ k % 3 = 0 then [','] else []) ++ (c :: groupRevAux rest (k + 1))

/-- Thousands-grouped decimal rendering of a natural number,
e.g. `1234567 ↦ "1,234,567"`. -/
def natGrouped (n : ℕ) : String :=
  String.mk ((groupRevAux (natDigits n).reverse 0).reverse)

/-- `round (|q| * scale)`, rounding halves away from zero, computed in `ℕ`. -/
def ratScaledHalfUp (q : ℚ) (scale : ℕ) : ℕ :=
  ((|q|).num.toNat * scale * 2 + (|q|).den) / (2 * (|q|).den)

/-- The up-to-3 fraction digits shown by default number formatting: the three
decimal digits of `f < 1000` with trailing zeros stripped. -/
def fracDigits3 (f : ℕ) : List Char :=
  let ds := [digitChar10 (f / 100), digitChar10 (f / 10 % 10), digitChar10 (f % 10)]
  (ds.reverse.dropWhile (· = '0')).reverse

/-- Models JS `Number.prototype.toLocaleString()` under the en-US default
options (thousands grouping, at most 3 fraction digits).  Exact-rational
half-away-from-zero rounding stands in for the double-precision rounding
of the runtime. -/
def toLocaleString (q : ℚ) : String :=
  let r := ratScaledHalfUp q 1000
  let sign := if q < 0 ∧ r ≠ 0 then "-" else ""
  let frac := fracDigits3 (r % 1000)
  sign ++ natGrouped (r / 1000) ++ (if frac.isEmpty then "" else "." ++ String.mk frac)

/-- Models JS `Number.prototype.toFixed(2)` (no grouping, exactly two
fraction digits; exact-rational rounding stands in for double rounding). -/
def toFixed2 (q : ℚ) : String :=
  let r := ratScaledHalfUp q 100
  let sign := if q < 0 ∧ r ≠ 0 then "-" else ""
  sign ++ natDecimalStr (r / 100) ++ "." ++ String.mk [digitChar10 (r / 10 % 10), digitChar10 (r % 10)]

/-- ASCII whitespace recognised when JS numeric parsing skips leading space. -/
def isWsChar (c : Char) : Bool :=
  c = ' ' || c = '\t' || c = '\n' || c = '\r' || c = '\x0b' || c = '\x0c'

/-- Numeric value of a decimal digit character. -/
def digitVal (c : Char) : ℕ := c.toNat - 48

/-- Value of a most-significant-first decimal digit list. -/
def digitsToNat (ds : List Char) : ℕ :=
  ds.foldl (fun a c => 10 * a + digitVal c) 0

/-- Value of a fraction-digit list, e.g. `['8','9'] ↦ 89/100`. -/
def fracToRat (ds : List Char) : ℚ :=
  (digitsToNat ds : ℚ) / (10 ^ ds.length)

/-- Exponent value after the `e`/`E` of a JS float literal; an `e` not
followed by digits contributes exponent `0` (the `e` is not part of the
longest valid numeric literal prefix). -/
def expVal (cs : List Char) : ℤ :=
  let (s, cs') := match cs with
    | '-' :: rest => ((-1 : ℤ), rest)
    | '+' :: rest => ((1 : ℤ), rest)
    | _ => ((1 : ℤ), cs)
  let ds := cs'.takeWhile Char.isDigit
  if ds.isEmpty then 0 else s * (digitsToNat ds : ℤ)

/-- Models JS `parseFloat`: skip leading whitespace, optional sign, then the
longest prefix of the form `digits [ '.' digits ] [ e sign digits ]`; `none`
models `NaN` (no valid numeric prefix).  `Infinity` literals are outside the
inputs of this program and are not modelled. -/
def jsParseFloat (s : String) : Option ℚ :=
  let cs := s.data.dropWhile isWsChar
  let (sgn, cs₁) := match cs with
    | '-' :: rest => ((-1 : ℚ), rest)
    | '+' :: rest => ((1 : ℚ), rest)
    | _ => ((1 : ℚ), cs)
  let ip := cs₁.takeWhile Char.isDigit
  let cs₂ := cs₁.dropWhile Char.isDigit
  let (fp, cs₃) := match cs₂ with
    | '.' :: rest => (rest.takeWhile Char.isDigit, rest.dropWhile Char.isDigit)
    | _ => (([] : List Char), cs₂)
  if ip.isEmpty ∧ fp.isEmpty then none
  else
    let mant : ℚ := (digitsToNat ip : ℚ) + fracToRat fp
    let e : ℤ := match cs₃ with
      | 'e' :: rest => expVal rest
      | 'E' :: rest => expVal rest
      | _ => 0
    some (sgn * mant * (10 : ℚ) ^ e)

/-- Models JS `parseInt(s, 10)`: skip leading whitespace, optional sign,
longest decimal digit prefix; `none` models `NaN`. -/
def jsParseInt10 (s : String) : Option ℤ :=
  let cs := s.data.dropWhile isWsChar
  let (sgn, cs₁) := match cs with
    | '-' :: rest => ((-1 : ℤ), rest)
    | '+' :: rest => ((1 : ℤ), rest)
    | _ => ((1 : ℤ), cs)
  let ds := cs₁.takeWhile Char.isDigit
  if ds.isEmpty then none else some (sgn * (digitsToNat ds : ℤ))

/-- Replace the first occurrence of `pat` in the character list by `rep`
(JS `String.prototype.replace` with a string pattern). -/
def replFirst : List Char → List Char → List Char → List Char
  | [], pat, rep => if pat.isEmpty then rep else []
  | c :: rest, pat, rep =>
    if pat.isPrefixOf (c :: rest) then rep ++ (c :: rest).drop pat.length
    else c :: replFirst rest pat rep

/-- Models JS `s.replace(pat, rep)` with a plain-string pattern: only the
first occurrence is replaced; the string is unchanged when `pat` is absent. -/
def jsReplaceFirst (s pat rep : String) : String :=
  String.mk (replFirst s.data pat.data rep.data)

/-- Models the JS idiom `x || dflt` applied to a string that may be
`undefined`/`null`: the default is taken exactly when `x` is nullish or the
empty string (the only falsy string). -/
def jsOrStr : Option String → String → String
  | none, dflt => dflt
  | some s, dflt => if s = "" then dflt else s

/-- Models JS `String.prototype.trim` (ASCII whitespace suffices for the
scraped headings). -/
def jsTrim (s : String) : String :=
  String.mk (((s.data.dropWhile isWsChar).reverse.dropWhile isWsChar).reverse)

/-- Models JS `String.prototype.toLowerCase` on the ASCII labels in use. -/
def jsToLower (s : String) : String :=
  String.mk (s.data.map Char.toLower)

/-- Collapse every maximal run of whitespace to a single `'-'`
(JS `.replace(/\s+/g, "-")`); the flag records whether the previous
character was whitespace. -/
def collapseWs : List Char → Bool → List Char
  | [], _ => []
  | c :: rest, prevWs =>
    if isWsChar c then
      (if prevWs then collapseWs rest true else '-' :: collapseWs rest true)
    else c :: collapseWs rest false

/-- Models JS `c.repeat(n)` for a single character (`"=".repeat(50)` etc.). -/
def repeatChar (c : Char) (n : ℕ) : String :=
  String.mk (List.replicate n c)

/-- Models `suffix.isSuffixOf`-style JS `String.prototype.endsWith`. -/
def strEndsWith (s suffix : String) : Bool :=
  suffix.data.isSuffixOf s.data

/-! ### Data model (`src/index.ts` lines 10-24) -/

/-- `type Creator = { name: string; url: string }`. -/
structure Creator where
  name : String
  url : String
deriving DecidableEq, Repr

/-- `type CreatorDetails = Creator & { minutesPurchased?; pricePerMinute?;
marketCap? }`.  A numeric field is `none` when it is absent from the stored
JSON record (including the case of a `NaN` scraped value, which
`JSON.stringify` persists as `null`). -/
structure CreatorDetails where
  name : String
  url : String
  minutesPurchased : Option ℚ
  pricePerMinute : Option ℚ
  marketCap : Option ℚ
deriving DecidableEq, Repr

/-- `type FormattedCreatorDetails = { category: string; creators: CreatorDetails[] }`. -/
structure FormattedCreatorDetails where
  category : String
  creators : List CreatorDetails
deriving DecidableEq, Repr

/-! ### Partition store (`saveCreatorsByCategory`, `readCreatorFiles`) -/

/-- Slug used as the storage key:
`categoryName.toLowerCase().replace(/\s+/g, "-")` (line 49). -/
def categorySlug (categoryName : String) : String :=
  String.mk (collapseWs (jsToLower categoryName).data false)

/-- Models `saveCreatorsByCategory` (lines 35-53): the observable effect is
one JSON file named `<slug>.json` holding the records, fully overwritten. -/
def saveCreatorsByCategory (categoryName : String) (creators : List α) :
    String × List α :=
  (categorySlug categoryName ++ ".json", creators)

/-- Models `readCreatorFiles` (lines 126-143) over an abstract directory
listing (filename, decoded JSON content): every `.json` file is kept, keyed
by the filename with its first `".json"` occurrence removed; nothing else
(in particular no category registry) selects the input. -/
def readCreatorFiles (dirFiles : List (String × List Creator)) :
    List (String × List Creator) :=
  dirFiles.filterMap fun f =>
    if strEndsWith f.1 ".json" then some (jsReplaceFirst f.1 ".json" "", f.2)
    else none

/-! ### Listing extractor (`scrapeCreatorCount`, lines 55-124) -/

/-- DOM data of one anchor inside the `.grid` container: the text content of
its first `h3` descendant (if any) and its resolved absolute `href`. -/
structure AnchorData where
  h3Text : Option String
  href : String
deriving DecidableEq, Repr

/-- One anchor becomes one stub:
`name: link.querySelector("h3")?.textContent?.trim() || "Unknown Creator",
url: link.href` (lines 107-110). -/
def anchorToCreator (a : AnchorData) : Creator :=
  { name := jsOrStr (a.h3Text.map jsTrim) "Unknown Creator", url := a.href }

/-- Models lines 102-112: `page.waitForSelector(".grid")` yields
`elementHandle | null` (spec §6); a `null` grid makes the optional-chained
`evaluate` produce `undefined`, which `|| []` turns into the empty listing;
a present grid maps its anchors in DOM order. -/
def scrapeCategoryListing (grid : Option (List AnchorData)) : List Creator :=
  (grid.map (·.map anchorToCreator)).getD []

/-- The compiled-in category registry (lines 56-89). -/
def categories : List (String × ℕ) :=
  [("Founders", 1), ("Influencers", 2), ("Personalities", 3), ("Investors", 4),
   ("Developers", 5), ("Time.fun Team", 8), ("Data Analysis", 9),
   ("Trading Analysis", 10)]

/-- Models `scrapeCreatorCount` (lines 55-124): for each registry category in
order, read that category's grid (the environment `env` maps the remote
category id to the rendered grid query result), save the stubs to
`creators/<slug>.json`, and accumulate the total.  Returns the total and the
written files in write order. -/
def scrapeCreatorCount (env : ℕ → Option (List AnchorData)) :
    ℕ × List (String × List Creator) :=
  categories.foldl
    (fun acc cat =>
      let creators := scrapeCategoryListing (env cat.2)
      (acc.1 + creators.length, acc.2 ++ [saveCreatorsByCategory cat.1 creators]))
    (0, [])

/-! ### Detail extractor (`scrapeCreatorDetails`, lines 145-206) -/

/-- DOM data of one rendered entity page, per the three label-anchored
queries: whether the XPath text search found the label node (`*Elem`), and
the text content of the first `p` of the label's next sibling (`*Text`,
`none` when the sibling chain or the `p` or its text is missing). -/
structure PageBrowseData where
  minutesElem : Bool
  minutesText : Option String
  priceElem : Bool
  priceText : Option String
  mcElem : Bool
  mcText : Option String
deriving DecidableEq, Repr

/-- Models `scrapeCreatorDetails` (lines 145-206).  The market-cap raw text
first drops its first `"$"` and its first `","`
(`marketCapText?.replace("$", "").replace(",", "")`, line 187); each numeric
field is parsed only when its label node was found and is `0` otherwise;
`none` models a `NaN` parse result (persisted as JSON `null`).  The stub's
`name`/`url` are spread unchanged into the result (lines 202-205). -/
def scrapeCreatorDetails (pg : PageBrowseData) (creator : Creator) : CreatorDetails :=
  let marketCapText := pg.mcText.map fun t => jsReplaceFirst (jsReplaceFirst t "$" "") "," ""
  { name := creator.name
    url := creator.url
    minutesPurchased :=
      if pg.minutesElem then (jsParseInt10 (jsOrStr pg.minutesText "0")).map (fun z => (z : ℚ))
      else some 0
    pricePerMinute :=
      if pg.priceElem then jsParseFloat (jsOrStr (pg.priceText.map (jsReplaceFirst · "$" "")) "0")
      else some 0
    marketCap :=
      if pg.mcElem then jsParseFloat (jsOrStr marketCapText "0")
      else some 0 }

/-- Models the per-category enrichment loop of `scrapeAllCreatorDetails`
(lines 222-230): the oracle `fetch` yields the rendered page for a stub, or
`none` when navigation/extraction throws; a failed entity is logged and
skipped (no record pushed), a successful one is enriched and pushed. -/
def enrichCreators (fetch : Creator → Option PageBrowseData)
    (creators : List Creator) : List CreatorDetails :=
  creators.filterMap fun c => (fetch c).map fun pg => scrapeCreatorDetails pg c

/-- Models `scrapeAllCreatorDetails` (lines 208-247) at the file-system
boundary: the partitions to enrich come solely from the `creators/`
directory listing, and each enriched partition is saved to
`creators-details/<slug>.json` under its filename-derived key. -/
def scrapeAllCreatorDetailsFS (fetch : Creator → Option PageBrowseData)
    (creatorsDir : List (String × List Creator)) :
    List (String × List CreatorDetails) :=
  (readCreatorFiles creatorsDir).map fun p =>
    saveCreatorsByCategory p.1 (enrichCreators fetch p.2)

/-! ### Aggregator/Reporter (`generateReadableReport`, lines 249-339) -/

/-- `creator.marketCap || 0` as used by both totals passes and the sort
comparator (lines 282, 300, 305). -/
def mcOr0 (c : CreatorDetails) : ℚ :=
  c.marketCap.getD 0

/-- Display name of a stored partition file (lines 258-265):
drop the first `".json"`, turn every `'-'` into `' '`, then
`category.charAt(0).toUpperCase() + category.slice(1)` — only the first
character of the whole string is capitalized. -/
def displayCategory (file : String) : String :=
  let category := String.mk
    ((jsReplaceFirst file ".json" "").data.map fun c => if c = '-' then ' ' else c)
  match category.data with
  | [] => ""
  | c :: rest => String.mk (c.toUpper :: rest)

/-- The read-and-parse loop of the report stage (lines 256-269): every
`.json` file of `creators-details/` becomes one `FormattedCreatorDetails`
in directory order. -/
def toAllData (files : List (String × List CreatorDetails)) :
    List FormattedCreatorDetails :=
  files.filterMap fun f =>
    if strEndsWith f.1 ".json" then
      some { category := displayCategory f.1, creators := f.2 }
    else none

/-- Stable descending insertion by the comparator
`(a, b) => (b.marketCap || 0) - (a.marketCap || 0)`: the inserted element
goes before the first strictly smaller entry and after equal ones it was
folded on top of. -/
def insertByMC (c : CreatorDetails) : List CreatorDetails → List CreatorDetails
  | [] => [c]
  | y :: ys => if mcOr0 y ≤ mcOr0 c then c :: y :: ys else y :: insertByMC c ys

/-- Models `categoryData.creators.sort((a, b) => (b.marketCap || 0) -
(a.marketCap || 0))` (lines 299-301): `Array.prototype.sort` is stable
(ES2019), so the call is a stable sort, descending by `marketCap || 0`. -/
def sortCreators (l : List CreatorDetails) : List CreatorDetails :=
  l.foldr insertByMC []

/-- The minutes column: `creator.minutesPurchased?.toLocaleString() || "N/A"`
(line 310). -/
def minutesField (c : CreatorDetails) : String :=
  jsOrStr (c.minutesPurchased.map toLocaleString) "N/A"

/-- The price column: `creator.pricePerMinute?.toFixed(2) || "N/A"`
(line 313); the `$` lives in the surrounding template. -/
def priceField (c : CreatorDetails) : String :=
  jsOrStr (c.pricePerMinute.map toFixed2) "N/A"

/-- The market-cap column: `creator.marketCap?.toLocaleString() || "N/A"`
(line 316). -/
def marketCapField (c : CreatorDetails) : String :=
  jsOrStr (c.marketCap.map toLocaleString) "N/A"

/-- One rendered entity block (lines 307-318). -/
def renderCreatorBlock (c : CreatorDetails) : String :=
  "Creator: " ++ c.name ++ "\n" ++
  ("URL: " ++ c.url ++ "\n") ++
  ("Minutes Purchased: " ++ minutesField c ++ "\n") ++
  ("Price per Minute: $" ++ priceField c ++ "\n") ++
  ("Market Cap: $" ++ marketCapField c ++ "\n") ++
  (repeatChar '-' 50 ++ "\n")

/-- Pass 1 of the report (lines 275-284): a single loop over all partitions
accumulating `totalCreators` and `totalMarketCap` from `0`. -/
def pass1Totals (allData : List FormattedCreatorDetails) : ℕ × ℚ :=
  allData.foldl
    (fun a cd =>
      (a.1 + cd.creators.length, cd.creators.foldl (fun m c => m + mcOr0 c) a.2))
    (0, 0)

/-- The body of the Pass-2 per-entity loop (lines 303-319): append the block
text and bump the same `totalCreators`/`totalMarketCap` counters. -/
def creatorStep (a : String × ℕ × ℚ) (c : CreatorDetails) : String × ℕ × ℚ :=
  (a.1 ++ renderCreatorBlock c, a.2.1 + 1, a.2.2 + mcOr0 c)

/-- One Pass-2 category iteration (lines 294-320): category header and
underline, then the per-entity loop over the sorted copy. -/
def categoryStep (a : String × ℕ × ℚ) (cd : FormattedCreatorDetails) :
    String × ℕ × ℚ :=
  (sortCreators cd.creators).foldl creatorStep
    (a.1 ++ ("\n" ++ cd.category ++ "\n") ++
      (repeatChar '=' cd.category.length ++ "\n\n"),
     a.2.1, a.2.2)

/-- The whole Pass-2 loop threading `(reportContent, totalCreators,
totalMarketCap)`. -/
def pass2Fold (allData : List FormattedCreatorDetails)
    (a : String × ℕ × ℚ) : String × ℕ × ℚ :=
  allData.foldl categoryStep a

/-- The fixed report head (lines 272-273); the argument is the
`new Date().toLocaleString()` of the moment the stage runs. -/
def reportHead (nowStr : String) : String :=
  "Time.fun Creators Report\n" ++ ("Generated on: " ++ nowStr ++ "\n\n")

/-- A summary block as printed at lines 287-290 and 323-326 (up to the
surrounding blank lines, which differ between the two sites). -/
def summaryText (tc : ℕ) (tm : ℚ) : String :=
  "Summary\n" ++ "=======\n" ++
  ("Total Creators: " ++ natDecimalStr tc ++ "\n") ++
  ("Total Market Cap: $" ++ toLocaleString tm ++ "\n")

/-- Models `generateReadableReport` (lines 249-339) as a function of the
generation timestamp string and the `creators-details/` directory listing;
the returned string is the full content written to `creator-report.txt`. -/
def generateReadableReport (nowStr : String)
    (files : List (String × List CreatorDetails)) : String :=
  let allData := toAllData files
  let t1 := pass1Totals allData
  let fin := pass2Fold allData
    (reportHead nowStr ++ summaryText t1.1 t1.2 ++ "\n" ++
      repeatChar '=' 50 ++ "\n\n", t1.1, t1.2)
  fin.1 ++ "\n" ++ summaryText fin.2.1 fin.2.2

/-! ### Pipeline driver session lifecycle (`main`, `scrapeAllCreatorDetails`) -/

/-- An automation-engine session lifecycle event: `puppeteer.launch`
acquires session `id`, `browser.close()` releases it. -/
inductive BEv where
  | launch (id : ℕ)
  | close (id : ℕ)
deriving DecidableEq, Repr

/-- Failure profile of one run, at the granularity of the spec's fatal error
taxonomy (§7): whether each engine launch succeeds and whether each stage's
non-per-entity work throws (per-entity and per-category-listing failures are
absorbed inside their stages and cannot change the session trace). -/
structure RunEnv where
  launchOk : Bool
  listingOk : Bool
  readFilesOk : Bool
  launch2Ok : Bool
  enrichOk : Bool
  reportOk : Bool
deriving DecidableEq, Repr

/-- Session trace of `scrapeAllCreatorDetails` (lines 208-247) and whether
it returned normally: `readCreatorFiles` runs before the stage's own
`initializeBrowser`, so on a read failure no session exists and the
`finally` closes nothing; once launch `2` succeeded the `finally` closes it
on both the normal and the throwing path. -/
def detailsTrace (e : RunEnv) : List BEv × Bool :=
  if ¬ e.readFilesOk then ([], false)
  else if ¬ e.launch2Ok then ([], false)
  else ([BEv.launch 2, BEv.close 2], e.enrichOk)

/-- Session trace of `main` (lines 341-363): launch `1` at pipeline start;
the listing stage, the enrichment stage (which contributes its own inner
trace), and the report stage in sequence, any failure short-circuiting; the
`finally` closes session `1` whenever it was acquired.  The Boolean is
`true` exactly on a `Done` (zero-exit) run. -/
def mainTrace (e : RunEnv) : List BEv × Bool :=
  if ¬ e.launchOk then ([], false)
  else if ¬ e.listingOk then ([BEv.launch 1, BEv.close 1], false)
  else
    let d := detailsTrace e
    if ¬ d.2 then ([BEv.launch 1] ++ d.1 ++ [BEv.close 1], false)
    else if ¬ e.reportOk then ([BEv.launch 1] ++ d.1 ++ [BEv.close 1], false)
    else ([BEv.launch 1] ++ d.1 ++ [BEv.close 1], true)

/-- Number of `launch` events in a trace. -/
def numLaunches (t : List BEv) : ℕ :=
  (t.filter fun ev => match ev with | BEv.launch _ => true | BEv.close _ => false).length

/-- Number of `close` events in a trace. -/
def numCloses (t : List BEv) : ℕ :=
  (t.filter fun ev => match ev with | BEv.launch _ => false | BEv.close _ => true).length

/-- Greatest number of simultaneously open sessions over all prefixes of a
trace (a `close` never drops below zero in the traces of this program). -/
def maxOpen (t : List BEv) : ℕ :=
  (t.foldl
    (fun a ev =>
      match ev with
      | BEv.launch _ => (a.1 + 1, max a.2 (a.1 + 1))
      | BEv.close _ => (a.1 - 1, a.2))
    (0, 0)).2

/-! ### Lemmas about the stable descending sort -/

theorem insertByMC_perm (c : CreatorDetails) (l : List CreatorDetails) :
    (insertByMC c l).Perm (c :: l) := by
  induction l with
  | nil => exact List.Perm.refl _
  | cons y ys ih =>
    rw [insertByMC]
    by_cases hc : mcOr0 y ≤ mcOr0 c
    · rw [if_pos hc]
    · rw [if_neg hc]
      exact (ih.cons y).trans (List.Perm.swap c y ys)

theorem sortCreators_perm (l : List CreatorDetails) :
    (sortCreators l).Perm l := by
  induction l with
  | nil => exact List.Perm.refl _
  | cons c cs ih =>
    exact (insertByMC_perm c (sortCreators cs)).trans (ih.cons c)

theorem sortCreators_length (l : List CreatorDetails) :
    (sortCreators l).length = l.length :=
  (sortCreators_perm l).length_eq

theorem insertByMC_pairwise (c : CreatorDetails) (l : List CreatorDetails)
    (h : l.Pairwise fun a b => mcOr0 b ≤ mcOr0 a) :
    (insertByMC c l).Pairwise fun a b => mcOr0 b ≤ mcOr0 a := by
  induction l with
  | nil => simp [insertByMC]
  | cons y ys ih =>
    obtain ⟨hy, hys⟩ := List.pairwise_cons.mp h
    rw [insertByMC]
    by_cases hc : mcOr0 y ≤ mcOr0 c
    · rw [if_pos hc]
      refine List.pairwise_cons.mpr ⟨?_, h⟩
      intro z hz
      rcases List.mem_cons.mp hz with rfl | hz'
      · exact hc
      · exact (hy z hz').trans hc
    · rw [if_neg hc]
      have hlt : mcOr0 c < mcOr0 y := not_le.mp hc
      refine List.pairwise_cons.mpr ⟨?_, ih hys⟩
      intro z hz
      rcases List.mem_cons.mp ((insertByMC_perm c ys).mem_iff.mp hz) with rfl | hz'
      · exact hlt.le
      · exact hy z hz'

theorem sortCreators_pairwise (l : List CreatorDetails) :
    (sortCreators l).Pairwise fun a b => mcOr0 b ≤ mcOr0 a := by
  induction l with
  | nil => simp [sortCreators]
  | cons c cs ih => exact insertByMC_pairwise c (sortCreators cs) ih

theorem insertByMC_filter_key (q : ℚ) (c : CreatorDetails)
    (l : List CreatorDetails) :
    (insertByMC c l).filter (fun x => decide (mcOr0 x = q)) =
      (c :: l).filter (fun x => decide (mcOr0 x = q)) := by
  induction l with
  | nil => rfl
  | cons y ys ih =>
    rw [insertByMC]
    by_cases hc : mcOr0 y ≤ mcOr0 c
    · rw [if_pos hc]
    · rw [if_neg hc]
      have hlt : mcOr0 c < mcOr0 y := not_le.mp hc
      by_cases hcq : mcOr0 c = q
      · by_cases hyq : mcOr0 y = q
        · exact absurd (hcq.trans hyq.symm) (ne_of_lt hlt)
        · simp [List.filter_cons, hcq, hyq, ih]
      · simp [List.filter_cons, hcq, ih]

theorem sortCreators_stable (q : ℚ) (l : List CreatorDetails) :
    (sortCreators l).filter (fun x => decide (mcOr0 x = q)) =
      l.filter (fun x => decide (mcOr0 x = q)) := by
  induction l with
  | nil => rfl
  | cons c cs ih =>
    have hs : sortCreators (c :: cs) = insertByMC c (sortCreators cs) := rfl
    rw [hs, insertByMC_filter_key q c (sortCreators cs),
      List.filter_cons, List.filter_cons]
    by_cases hcq : mcOr0 c = q <;> simp [hcq, ih]

/-- Concrete creators of spec §8's sort-correctness scenario: market caps
`[100, 500, 500, 10]` in discovery order `[A, B, C, D]`. -/
def exA : CreatorDetails := ⟨"A", "uA", some 0, some 0, some 100⟩

/-- Entity B of the sort scenario (market cap 500, discovered second). -/
def exB : CreatorDetails := ⟨"B", "uB", some 0, some 0, some 500⟩

/-- Entity C of the sort scenario (market cap 500, discovered third). -/
def exC : CreatorDetails := ⟨"C", "uC", some 0, some 0, some 500⟩

/-- Entity D of the sort scenario (market cap 10, discovered last). -/
def exD : CreatorDetails := ⟨"D", "uD", some 0, some 0, some 10⟩

/-- C3: the per-category sort used by the report is a permutation, is
descending by `marketCap || 0`, is stable (the subsequence at every fixed
market-cap value is unchanged), and on market caps `[100, 500, 500, 10]` in
discovery order `[A, B, C, D]` renders `[B, C, A, D]`. -/
theorem spec_C3_sort_desc_stable :
    (∀ l : List CreatorDetails, (sortCreators l).Perm l) ∧
    (∀ l : List CreatorDetails,
      (sortCreators l).Pairwise fun a b => mcOr0 b ≤ mcOr0 a) ∧
    (∀ (l : List CreatorDetails) (q : ℚ),
      (sortCreators l).filter (fun x => decide (mcOr0 x = q)) =
        l.filter (fun x => decide (mcOr0 x = q))) ∧
    sortCreators [exA, exB, exC, exD] = [exB, exC, exA, exD] :=
  ⟨sortCreators_perm, sortCreators_pairwise,
   fun l q => sortCreators_stable q l, by decide⟩

/-! ### Lemmas about the two report passes -/

/-- Concatenation of the rendered blocks of a list of records. -/
def blocksText (l : List CreatorDetails) : String :=
  l.foldr (fun c t => renderCreatorBlock c ++ t) ""

/-- Sum of `marketCap || 0` over a partition. -/
def sumMC (l : List CreatorDetails) : ℚ :=
  (l.map mcOr0).sum

/-- Total record count over all partitions. -/
def totalLen (d : List FormattedCreatorDetails) : ℕ :=
  (d.map fun cd => cd.creators.length).sum

/-- Total `marketCap || 0` sum over all partitions. -/
def totalMC (d : List FormattedCreatorDetails) : ℚ :=
  (d.map fun cd => sumMC cd.creators).sum

theorem sumMC_sortCreators (l : List CreatorDetails) :
    sumMC (sortCreators l) = sumMC l :=
  ((sortCreators_perm l).map mcOr0).sum_eq

theorem creatorFold_spec (l : List CreatorDetails) :
    ∀ (s : String) (tc : ℕ) (tm : ℚ),
      l.foldl creatorStep (s, tc, tm) =
        (s ++ blocksText l, tc + l.length, tm + sumMC l) := by
  induction l with
  | nil =>
    intro s tc tm
    simp [blocksText, sumMC, String.append_empty]
  | cons c l ih =>
    intro s tc tm
    rw [List.foldl_cons]
    show l.foldl creatorStep (s ++ renderCreatorBlock c, tc + 1, tm + mcOr0 c) = _
    rw [ih]
    refine Prod.ext ?_ (Prod.ext ?_ ?_)
    · show (s ++ renderCreatorBlock c) ++ blocksText l = s ++ blocksText (c :: l)
      rw [String.append_assoc]
      rfl
    · show tc + 1 + l.length = tc + (c :: l).length
      simp [List.length_cons]
      omega
    · show tm + mcOr0 c + sumMC l = tm + sumMC (c :: l)
      simp [sumMC, List.map_cons, List.sum_cons]
      ring

/-- The text one Pass-2 iteration appends for one category. -/
def categoryText (cd : FormattedCreatorDetails) : String :=
  ("\n" ++ cd.category ++ "\n") ++
    (repeatChar '=' cd.category.length ++ "\n\n") ++
    blocksText (sortCreators cd.creators)

theorem categoryStep_spec (a : String × ℕ × ℚ) (cd : FormattedCreatorDetails) :
    categoryStep a cd =
      (a.1 ++ categoryText cd, a.2.1 + cd.creators.length, a.2.2 + sumMC cd.creators) := by
  obtain ⟨s, tc, tm⟩ := a
  rw [categoryStep, creatorFold_spec]
  refine Prod.ext ?_ (Prod.ext ?_ ?_)
  · show (s ++ ("\n" ++ cd.category ++ "\n") ++
      (repeatChar '=' cd.category.length ++ "\n\n")) ++
      blocksText (sortCreators cd.creators) = s ++ categoryText cd
    simp [categoryText, String.append_assoc]
  · show tc + (sortCreators cd.creators).length = tc + cd.creators.length
    rw [sortCreators_length]
  · show tm + sumMC (sortCreators cd.creators) = tm + sumMC cd.creators
    rw [sumMC_sortCreators]

/-- The whole running body of the rendered text. -/
def bodyText (d : List FormattedCreatorDetails) : String :=
  d.foldr (fun cd t => categoryText cd ++ t) ""

theorem pass2Fold_spec (d : List FormattedCreatorDetails) :
    ∀ (s : String) (tc : ℕ) (tm : ℚ),
      pass2Fold d (s, tc, tm) =
        (s ++ bodyText d, tc + totalLen d, tm + totalMC d) := by
  induction d with
  | nil =>
    intro s tc tm
    simp [pass2Fold, bodyText, totalLen, totalMC, String.append_empty]
  | cons cd ds ih =>
    intro s tc tm
    rw [pass2Fold, List.foldl_cons, categoryStep_spec]
    show pass2Fold ds _ = _
    rw [ih]
    refine Prod.ext ?_ (Prod.ext ?_ ?_)
    · show (s ++ categoryText cd) ++ bodyText ds = s ++ bodyText (cd :: ds)
      rw [String.append_assoc]
      rfl
    · show tc + cd.creators.length + totalLen ds = tc + totalLen (cd :: ds)
      simp [totalLen, List.map_cons, List.sum_cons]
      omega
    · show tm + sumMC cd.creators + totalMC ds = tm + totalMC (cd :: ds)
      simp [totalMC, List.map_cons, List.sum_cons]
      ring

theorem mcFold_spec (l : List CreatorDetails) :
    ∀ m : ℚ, l.foldl (fun m c => m + mcOr0 c) m = m + sumMC l := by
  induction l with
  | nil => intro m; simp [sumMC]
  | cons c cs ih =>
    intro m
    rw [List.foldl_cons, ih]
    simp [sumMC, List.map_cons, List.sum_cons]
    ring

theorem pass1Totals_spec (d : List FormattedCreatorDetails) :
    pass1Totals d = (totalLen d, totalMC d) := by
  have key : ∀ (a : ℕ × ℚ),
      d.foldl (fun a cd =>
        (a.1 + cd.creators.length,
         cd.creators.foldl (fun m c => m + mcOr0 c) a.2)) a =
        (a.1 + totalLen d, a.2 + totalMC d) := by
    induction d with
    | nil => intro a; simp [totalLen, totalMC]
    | cons cd ds ih =>
      intro a
      rw [List.foldl_cons, ih, mcFold_spec]
      refine Prod.ext ?_ ?_
      · show a.1 + cd.creators.length + totalLen ds = a.1 + totalLen (cd :: ds)
        simp [totalLen, List.map_cons, List.sum_cons]
        omega
      · show a.2 + sumMC cd.creators + totalMC ds = a.2 + totalMC (cd :: ds)
        simp [totalMC, List.map_cons, List.sum_cons]
        ring
  have h := key (0, 0)
  simpa [pass1Totals] using h

/-- C1: in the rendered report, the trailing summary's counters equal
exactly twice the leading summary's: the leading block shows the Pass-1
totals, and Pass 2 keeps incrementing the same counters once per rendered
record, ending at Pass-1 totals plus one more count and one more market-cap
sum per record. -/
theorem spec_C1_trailing_summary_doubled (nowStr : String)
    (files : List (String × List CreatorDetails)) :
    ∃ body,
      generateReadableReport nowStr files =
        reportHead nowStr ++
          summaryText (pass1Totals (toAllData files)).1
            (pass1Totals (toAllData files)).2 ++
          "\n" ++ repeatChar '=' 50 ++ "\n\n" ++ body ++ "\n" ++
          summaryText (2 * (pass1Totals (toAllData files)).1)
            (2 * (pass1Totals (toAllData files)).2) := by
  refine ⟨bodyText (toAllData files), ?_⟩
  show (pass2Fold (toAllData files) _).1 ++ "\n" ++
      summaryText (pass2Fold (toAllData files) _).2.1
        (pass2Fold (toAllData files) _).2.2 = _
  rw [pass2Fold_spec]
  rw [pass1Totals_spec]
  show (_ ++ bodyText (toAllData files)) ++ "\n" ++
      summaryText (totalLen (toAllData files) + totalLen (toAllData files))
        (totalMC (toAllData files) + totalMC (toAllData files)) = _
  rw [two_mul, two_mul]

/-- Everything the report contains after the timestamp: a function of the
detail partitions alone. -/
def reportTail (files : List (String × List CreatorDetails)) : String :=
  "\n\n" ++
    (summaryText (pass1Totals (toAllData files)).1 (pass1Totals (toAllData files)).2 ++
      ("\n" ++
        (repeatChar '=' 50 ++
          ("\n\n" ++
            (bodyText (toAllData files) ++
              ("\n" ++
                summaryText
                  ((pass1Totals (toAllData files)).1 + totalLen (toAllData files))
                  ((pass1Totals (toAllData files)).2 + totalMC (toAllData files))))))))

theorem generateReadableReport_shape (nowStr : String)
    (files : List (String × List CreatorDetails)) :
    generateReadableReport nowStr files =
      "Time.fun Creators Report\n" ++
        ("Generated on: " ++ (nowStr ++ reportTail files)) := by
  show (pass2Fold (toAllData files) _).1 ++ "\n" ++
      summaryText (pass2Fold (toAllData files) _).2.1
        (pass2Fold (toAllData files) _).2.2 = _
  rw [pass2Fold_spec]
  simp only [reportTail, reportHead, String.append_assoc]

/-- C2 (amended): the report text is a deterministic function of the detail
partitions and the generation timestamp; two runs over the same partitions
produce texts that agree byte-for-byte everywhere except the interpolated
timestamp of the `Generated on:` line. -/
theorem spec_C2_report_function_of_partitions_and_timestamp
    (ts₁ ts₂ : String) (files : List (String × List CreatorDetails)) :
    ∃ rest,
      generateReadableReport ts₁ files =
        "Time.fun Creators Report\n" ++ ("Generated on: " ++ (ts₁ ++ rest)) ∧
      generateReadableReport ts₂ files =
        "Time.fun Creators Report\n" ++ ("Generated on: " ++ (ts₂ ++ rest)) :=
  ⟨reportTail files, generateReadableReport_shape ts₁ files,
    generateReadableReport_shape ts₂ files⟩

/-- C2 (counterexample): running the report stage twice on the same (empty)
detail partitions at two different wall-clock instants does not produce
byte-identical text — the `Generated on:` line embeds the current time, so
the output is not a function of the partition contents alone. -/
theorem spec_C2_counterexample :
    generateReadableReport "1/1/2024, 12:00:00 AM" [] ≠
      generateReadableReport "1/1/2024, 12:00:01 AM" [] := by
  decide

/-! ### Lemmas about per-entity enrichment -/

theorem enrichCreators_ids (fetch : Creator → Option PageBrowseData)
    (l : List Creator) (h : ∀ c ∈ l, (fetch c).isSome) :
    (enrichCreators fetch l).map (fun r => (r.name, r.url)) =
      l.map fun c => (c.name, c.url) := by
  induction l with
  | nil => rfl
  | cons c cs ih =>
    obtain ⟨pg, hpg⟩ := Option.isSome_iff_exists.mp (h c (List.mem_cons_self c cs))
    have htail : ∀ x ∈ cs, (fetch x).isSome :=
      fun x hx => h x (List.mem_cons_of_mem c hx)
    simp [enrichCreators, List.filterMap_cons, hpg, scrapeCreatorDetails] at *
    exact ih htail

/-- C4: enrichment never invents records (every output record carries the
identity of a stub of the same partition), and when extraction fails for
exactly one entity `E` of a partition — every other stub succeeding and no
other stub sharing `E`'s identity URL — the detail partition has exactly one
fewer record, carries no record for `E`, and keeps every other entity's
identity unchanged and in order. -/
theorem spec_C4_single_failure_drops_one :
    (∀ (fetch : Creator → Option PageBrowseData) (stubs : List Creator)
        (r : CreatorDetails), r ∈ enrichCreators fetch stubs →
      ∃ c, c ∈ stubs ∧ r.name = c.name ∧ r.url = c.url) ∧
    ∀ (fetch : Creator → Option PageBrowseData) (xs : List Creator)
      (E : Creator) (ys : List Creator),
      fetch E = none →
      (∀ c ∈ xs ++ ys, (fetch c).isSome) →
      (∀ c ∈ xs ++ ys, c.url ≠ E.url) →
      (enrichCreators fetch (xs ++ E :: ys)).length + 1 = (xs ++ E :: ys).length ∧
      (enrichCreators fetch (xs ++ E :: ys)).map (fun r => (r.name, r.url)) =
        (xs ++ ys).map (fun c => (c.name, c.url)) ∧
      ∀ r ∈ enrichCreators fetch (xs ++ E :: ys), r.url ≠ E.url := by
  constructor
  · intro fetch stubs r hr
    obtain ⟨c, hc, hsome⟩ := List.mem_filterMap.mp hr
    obtain ⟨pg, _, hpg⟩ := Option.map_eq_some'.mp hsome
    exact ⟨c, hc, by rw [← hpg]; rfl, by rw [← hpg]; rfl⟩
  · intro fetch xs E ys hE hok hurl
    have hsplit : enrichCreators fetch (xs ++ E :: ys) =
        enrichCreators fetch xs ++ enrichCreators fetch ys := by
      simp [enrichCreators, List.filterMap_append, List.filterMap_cons, hE]
    have hids : (enrichCreators fetch (xs ++ E :: ys)).map (fun r => (r.name, r.url)) =
        (xs ++ ys).map (fun c => (c.name, c.url)) := by
      rw [hsplit, List.map_append, List.map_append,
        enrichCreators_ids fetch xs fun c hc => hok c (List.mem_append_left ys hc),
        enrichCreators_ids fetch ys fun c hc => hok c (List.mem_append_right xs hc)]
    refine ⟨?_, hids, ?_⟩
    · have hlen := congrArg List.length hids
      simp only [List.length_map] at hlen
      simp [hlen, List.length_append]
      omega
    · intro r hr
      have hmem : (r.name, r.url) ∈ (xs ++ ys).map fun c => (c.name, c.url) := by
        rw [← hids]
        exact List.mem_map_of_mem _ hr
      obtain ⟨c, hc, hpair⟩ := List.mem_map.mp hmem
      have : r.url = c.url := (congrArg Prod.snd hpair).symm
      rw [this]
      exact hurl c hc

/-- Page data used by the witness scenarios: all three labels present with
well-formed values. -/
def pgW : PageBrowseData :=
  ⟨true, some "5", true, some "$2.50", true, some "$100"⟩

/-- A fetch oracle that fails (throws) exactly on the entity whose page url
is `"http://e"` and renders `pgW` for every other entity. -/
def fetchW : Creator → Option PageBrowseData :=
  fun c => if c.url = "http://e" then none else some pgW

theorem spec_C4_single_failure_drops_one_witness :
    (enrichCreators fetchW
        ([⟨"A", "http://a"⟩] ++ ⟨"E", "http://e"⟩ :: [⟨"B", "http://b"⟩])).length + 1 =
      ([⟨"A", "http://a"⟩] ++ ⟨"E", "http://e"⟩ :: [⟨"B", "http://b"⟩] : List Creator).length ∧
    (enrichCreators fetchW
        ([⟨"A", "http://a"⟩] ++ ⟨"E", "http://e"⟩ :: [⟨"B", "http://b"⟩])).map
        (fun r => (r.name, r.url)) = [("A", "http://a"), ("B", "http://b")] := by
  have h := spec_C4_single_failure_drops_one.2 fetchW [⟨"A", "http://a"⟩]
    ⟨"E", "http://e"⟩ [⟨"B", "http://b"⟩] (by decide) (by decide) (by decide)
  exact ⟨h.1, h.2.1.trans (by decide)⟩

/-- C5: listing extraction is total over the engine interface of spec §6
(`waitForSelector` yields an element handle or `null`): a missing grid
container and a grid with no anchors both yield the valid empty listing,
and every registry category is still visited and persisted — one
`creators/<slug>.json` file per category, in registry order, whatever the
per-category grids look like — with the run's total the sum of the
per-category listing lengths. -/
theorem spec_C5_listing_never_fails :
    scrapeCategoryListing none = [] ∧
    scrapeCategoryListing (some []) = [] ∧
    (∀ env : ℕ → Option (List AnchorData),
      (scrapeCreatorCount env).2.map Prod.fst =
        categories.map fun cat => categorySlug cat.1 ++ ".json") ∧
    (∀ env : ℕ → Option (List AnchorData),
      (scrapeCreatorCount env).1 =
        (categories.map fun cat => (scrapeCategoryListing (env cat.2)).length).sum) := by
  refine ⟨rfl, rfl, ?_, ?_⟩
  · intro env
    simp [scrapeCreatorCount, categories, saveCreatorsByCategory]
  · intro env
    simp [scrapeCreatorCount, categories]
    omega

/-- The concrete market-cap raw text of C6's scenario rendered on the page,
with all three labels present. -/
def pageMC : PageBrowseData :=
  ⟨true, some "100", true, some "$1.00", true, some "$1,234,567.89"⟩

/-- C6: the detail extractor's market-cap cleanup
`marketCapText?.replace("$", "").replace(",", "")` removes only the FIRST
comma, so on the raw value `"$1,234,567.89"` the cleaned text is
`"1234,567.89"` and `parseFloat` stops at the surviving comma: the stored
market cap is the truncated prefix `1234`, not the denoted `1234567.89`. -/
theorem spec_C6_marketcap_comma_truncation :
    (scrapeCreatorDetails pageMC ⟨"X", "uX"⟩).marketCap = some ((1234 : ℚ)) ∧
    jsReplaceFirst (jsReplaceFirst "$1,234,567.89" "$" "") "," "" = "1234,567.89" ∧
    ((1234 : ℚ)) ≠ ((1234567.89 : ℚ)) := by
  refine ⟨?_, by decide, by norm_num⟩
  have h1 : (scrapeCreatorDetails pageMC ⟨"X", "uX"⟩).marketCap =
      some ((1 : ℚ) * ((digitsToNat ['1', '2', '3', '4'] : ℚ) + fracToRat []) *
        (10 : ℚ) ^ (0 : ℤ)) := rfl
  have hd : digitsToNat ['1', '2', '3', '4'] = 1234 := by decide
  rw [h1, hd]
  norm_num [fracToRat, digitsToNat]

/-- C8 (counterexample): for the registry label `"Data Analysis"`, storing
under the slug and re-titling for the report yields `"Data analysis"` — the
report capitalizes only the first character of the whole string, not of
every word — so the round trip does not reproduce the original label. -/
theorem spec_C8_counterexample :
    displayCategory (categorySlug "Data Analysis" ++ ".json") = "Data analysis" ∧
    displayCategory (categorySlug "Data Analysis" ++ ".json") ≠ "Data Analysis" := by
  decide

/-- C8 (amended): re-titling lowercases everything except the first
character of the whole display string, so the slug round-trip reproduces a
registry label exactly when the label's only capital is its leading one —
the five single-word labels round-trip, while the three multi-word labels
come back with their later words uncapitalized. -/
theorem spec_C8_retitle_first_char_only :
    displayCategory (categorySlug "Founders" ++ ".json") = "Founders" ∧
    displayCategory (categorySlug "Influencers" ++ ".json") = "Influencers" ∧
    displayCategory (categorySlug "Personalities" ++ ".json") = "Personalities" ∧
    displayCategory (categorySlug "Investors" ++ ".json") = "Investors" ∧
    displayCategory (categorySlug "Developers" ++ ".json") = "Developers" ∧
    displayCategory (categorySlug "Time.fun Team" ++ ".json") = "Time.fun team" ∧
    displayCategory (categorySlug "Data Analysis" ++ ".json") = "Data analysis" ∧
    displayCategory (categorySlug "Trading Analysis" ++ ".json") = "Trading analysis" := by
  decide

/-- The failure-free run profile: every launch and every stage succeeds. -/
def envAllOk : RunEnv :=
  ⟨true, true, true, true, true, true⟩

/-- C7 (counterexample): a fully successful (`Done`) run acquires TWO
automation-engine sessions, not one — `main` launches at pipeline start and
`scrapeAllCreatorDetails` launches its own browser for the enrichment stage
while the first is still open — so two sessions are concurrently open
during enrichment. -/
theorem spec_C7_counterexample :
    numLaunches (mainTrace envAllOk).1 = 2 ∧
    maxOpen (mainTrace envAllOk).1 = 2 ∧
    (mainTrace envAllOk).2 = true := by
  decide

/-- C7 (amended): across every run, each acquired session is released
exactly once (launch and close counts agree globally and per session), at
most two sessions are ever acquired, the driver's session is acquired
whenever its launch succeeds and is then closed on every exit path, and a
run that reaches a successfully launched enrichment stage acquires the
second, concurrently open session — the happy-path trace being
launch 1, launch 2, close 2, close 1. -/
theorem spec_C7_two_sessions_each_released_once (e : RunEnv) :
    numLaunches (mainTrace e).1 = numCloses (mainTrace e).1 ∧
    (mainTrace e).1.count (BEv.launch 1) = (mainTrace e).1.count (BEv.close 1) ∧
    (mainTrace e).1.count (BEv.launch 2) = (mainTrace e).1.count (BEv.close 2) ∧
    (mainTrace e).1.count (BEv.launch 1) ≤ 1 ∧
    (mainTrace e).1.count (BEv.launch 2) ≤ 1 ∧
    (e.launchOk = true → (mainTrace e).1.count (BEv.launch 1) = 1) ∧
    ((mainTrace e).2 = true →
      (mainTrace e).1 = [BEv.launch 1, BEv.launch 2, BEv.close 2, BEv.close 1] ∧
      maxOpen (mainTrace e).1 = 2) := by
  obtain ⟨l1, li, rf, l2, en, rp⟩ := e
  cases l1 <;> cases li <;> cases rf <;> cases l2 <;> cases en <;> cases rp <;>
    decide

theorem spec_C7_two_sessions_each_released_once_witness :
    (mainTrace envAllOk).1.count (BEv.launch 1) = 1 ∧
    (mainTrace envAllOk).1 = [BEv.launch 1, BEv.launch 2, BEv.close 2, BEv.close 1] ∧
    maxOpen (mainTrace envAllOk).1 = 2 := by
  have h := spec_C7_two_sessions_each_released_once envAllOk
  exact ⟨h.2.2.2.2.2.1 (by decide), h.2.2.2.2.2.2 (by decide)⟩

/-- The stub left behind for a category that is not in the compiled-in
registry. -/
def legacyStub : Creator :=
  ⟨"Legacy", "http://legacy"⟩

/-- Rendered page of the legacy stub: all three labels present. -/
def pageLegacy : PageBrowseData :=
  ⟨true, some "7", true, some "$3.00", true, some "$42"⟩

/-- Fetch oracle of the legacy scenario: every navigation succeeds and
renders `pageLegacy`. -/
def fetchLegacy : Creator → Option PageBrowseData :=
  fun _ => some pageLegacy

/-- C10: the enrichment stage is driven purely by the `creators/` directory
listing (its category set is exactly the `.json` files, keyed by the
filename-derived slug; the registry appears nowhere in it), so a
`legacy-cat.json` stub partition whose slug matches no registry category is
still enriched, saved to `creators-details/legacy-cat.json`, and flows into
the report stage under the display header `Legacy cat`. -/
theorem spec_C10_enrichment_is_fs_driven :
    (∀ (fetch : Creator → Option PageBrowseData)
        (creatorsDir : List (String × List Creator)),
      (scrapeAllCreatorDetailsFS fetch creatorsDir).map Prod.fst =
        (readCreatorFiles creatorsDir).map fun p => categorySlug p.1 ++ ".json") ∧
    ((categories.map fun cat => categorySlug cat.1).contains "legacy-cat" = false) ∧
    scrapeAllCreatorDetailsFS fetchLegacy [("legacy-cat.json", [legacyStub])] =
      [("legacy-cat.json", [scrapeCreatorDetails pageLegacy legacyStub])] ∧
    toAllData (scrapeAllCreatorDetailsFS fetchLegacy [("legacy-cat.json", [legacyStub])]) =
      [{ category := "Legacy cat",
         creators := [scrapeCreatorDetails pageLegacy legacyStub] }] := by
  refine ⟨?_, by decide, rfl, rfl⟩
  intro fetch creatorsDir
  simp [scrapeAllCreatorDetailsFS, saveCreatorsByCategory, List.map_map]

/-! ### Character-level facts about the number formatters -/

theorem digitChar10_isDigit (d : ℕ) : (digitChar10 d).isDigit = true := by
  unfold digitChar10
  repeat' split
  all_goals decide

theorem mem_natDecimalAux :
    ∀ (fuel n : ℕ), ∀ c ∈ natDecimalAux fuel n, c.isDigit = true := by
  intro fuel
  induction fuel with
  | zero =>
    intro n c hc
    simp [natDecimalAux] at hc
  | succ f ih =>
    intro n c hc
    simp only [natDecimalAux] at hc
    by_cases hn : n = 0
    · simp [hn] at hc
    · rw [if_neg hn] at hc
      rcases List.mem_append.mp hc with h | h
      · exact ih _ c h
      · rw [List.mem_singleton.mp h]
        exact digitChar10_isDigit _

theorem mem_natDigits (n : ℕ) (c : Char) (hc : c ∈ natDigits n) :
    c.isDigit = true := by
  rw [natDigits] at hc
  by_cases hn : n = 0
  · rw [if_pos hn] at hc
    rw [List.mem_singleton.mp hc]
    decide
  · rw [if_neg hn] at hc
    exact mem_natDecimalAux _ _ c hc

theorem natDigits_ne_nil (n : ℕ) : natDigits n ≠ [] := by
  rw [natDigits]
  by_cases hn : n = 0
  · simp [hn]
  · rw [if_neg hn]
    simp only [natDecimalAux, if_neg hn]
    simp

theorem mem_groupRevAux :
    ∀ (l : List Char) (k : ℕ), ∀ c ∈ groupRevAux l k, c ∈ l ∨ c = ',' := by
  intro l
  induction l with
  | nil =>
    intro k c hc
    simp [groupRevAux] at hc
  | cons x xs ih =>
    intro k c hc
    simp only [groupRevAux] at hc
    rcases List.mem_append.mp hc with h | h
    · split at h
      · rw [List.mem_singleton.mp h]
        exact Or.inr rfl
      · simp at h
    · rcases List.mem_cons.mp h with rfl | h
      · exact Or.inl (List.mem_cons_self _ _)
      · rcases ih (k + 1) c h with h' | h'
        · exact Or.inl (List.mem_cons_of_mem _ h')
        · exact Or.inr h'

theorem groupRevAux_ne_nil (x : Char) (xs : List Char) (k : ℕ) :
    groupRevAux (x :: xs) k ≠ [] := by
  simp only [groupRevAux]
  simp

theorem mem_natGrouped (n : ℕ) (c : Char) (hc : c ∈ (natGrouped n).data) :
    c.isDigit = true ∨ c = ',' := by
  rw [natGrouped] at hc
  have hc' := List.mem_reverse.mp hc
  rcases mem_groupRevAux _ 0 c hc' with h | h
  · exact Or.inl (mem_natDigits n c (List.mem_reverse.mp h))
  · exact Or.inr h

theorem natGrouped_data_ne_nil (n : ℕ) : (natGrouped n).data ≠ [] := by
  rw [natGrouped]
  intro h
  have h' := List.reverse_eq_nil_iff.mp h
  cases hnd : (natDigits n).reverse with
  | nil => exact natDigits_ne_nil n (List.reverse_eq_nil_iff.mp hnd)
  | cons x xs =>
    rw [hnd] at h'
    exact groupRevAux_ne_nil x xs 0 h'

theorem mem_fracDigits3 (f : ℕ) (c : Char) (hc : c ∈ fracDigits3 f) :
    c.isDigit = true := by
  simp only [fracDigits3] at hc
  have h1 := List.mem_reverse.mp hc
  have h2 := List.mem_reverse.mp ((List.dropWhile_sublist _).subset h1)
  simp only [List.mem_cons, List.not_mem_nil, or_false] at h2
  rcases h2 with h | h | h <;> (rw [h]; exact digitChar10_isDigit _)

theorem mem_toLocaleString (q : ℚ) (c : Char) (hc : c ∈ (toLocaleString q).data) :
    c.isDigit = true ∨ c = ',' ∨ c = '.' ∨ c = '-' := by
  simp only [toLocaleString, String.data_append] at hc
  rcases List.mem_append.mp hc with h | h
  · rcases List.mem_append.mp h with h' | h'
    · split at h'
      · rw [show ("-" : String).data = ['-'] from rfl] at h'
        exact Or.inr (Or.inr (Or.inr (List.mem_singleton.mp h')))
      · rw [show ("" : String).data = [] from rfl] at h'
        exact absurd h' (List.not_mem_nil c)
    · rcases mem_natGrouped _ c h' with hd | hd
      · exact Or.inl hd
      · exact Or.inr (Or.inl hd)
  · split at h
    · rw [show ("" : String).data = [] from rfl] at h
      exact absurd h (List.not_mem_nil c)
    · rw [String.data_append] at h
      rcases List.mem_append.mp h with h' | h'
      · rw [show ("." : String).data = ['.'] from rfl] at h'
        exact Or.inr (Or.inr (Or.inl (List.mem_singleton.mp h')))
      · exact Or.inl (mem_fracDigits3 _ c h')

theorem mem_toFixed2 (q : ℚ) (c : Char) (hc : c ∈ (toFixed2 q).data) :
    c.isDigit = true ∨ c = '.' ∨ c = '-' := by
  simp only [toFixed2, String.data_append] at hc
  rcases List.mem_append.mp hc with h | h
  · rcases List.mem_append.mp h with h' | h'
    · rcases List.mem_append.mp h' with h2 | h2
      · split at h2
        · rw [show ("-" : String).data = ['-'] from rfl] at h2
          exact Or.inr (Or.inr (List.mem_singleton.mp h2))
        · rw [show ("" : String).data = [] from rfl] at h2
          exact absurd h2 (List.not_mem_nil c)
      · exact Or.inl (mem_natDigits _ c h2)
    · exact Or.inr (Or.inl (List.mem_singleton.mp h'))
  · simp only [List.mem_cons, List.not_mem_nil, or_false] at h
    rcases h with h | h <;> (rw [h]; exact Or.inl (digitChar10_isDigit _))

theorem toLocaleString_data_ne_nil (q : ℚ) : (toLocaleString q).data ≠ [] := by
  simp only [toLocaleString, String.data_append]
  intro h
  rcases List.append_eq_nil.mp h with ⟨h1, _⟩
  rcases List.append_eq_nil.mp h1 with ⟨_, h2⟩
  exact natGrouped_data_ne_nil _ h2

theorem toFixed2_data_ne_nil (q : ℚ) : (toFixed2 q).data ≠ [] := by
  simp only [toFixed2, String.data_append]
  intro h
  rcases List.append_eq_nil.mp h with ⟨_, h2⟩
  exact List.cons_ne_nil _ _ h2

theorem toLocaleString_ne_empty (q : ℚ) : toLocaleString q ≠ "" :=
  fun h => toLocaleString_data_ne_nil q (by rw [h])

theorem toFixed2_ne_empty (q : ℚ) : toFixed2 q ≠ "" :=
  fun h => toFixed2_data_ne_nil q (by rw [h])

theorem toLocaleString_ne_NA (q : ℚ) : toLocaleString q ≠ "N/A" := by
  intro h
  have hN : ('N' : Char) ∈ (toLocaleString q).data := by rw [h]; decide
  rcases mem_toLocaleString q 'N' hN with h' | h' | h' | h' <;>
    exact absurd h' (by decide)

theorem toFixed2_ne_NA (q : ℚ) : toFixed2 q ≠ "N/A" := by
  intro h
  have hN : ('N' : Char) ∈ (toFixed2 q).data := by rw [h]; decide
  rcases mem_toFixed2 q 'N' hN with h' | h' | h' <;>
    exact absurd h' (by decide)

/-! ### The three rendered columns collapse to a `none`-test -/

theorem minutesField_eq (c : CreatorDetails) :
    minutesField c =
      match c.minutesPurchased with
      | none => "N/A"
      | some v => toLocaleString v := by
  cases h : c.minutesPurchased with
  | none => simp [minutesField, h, jsOrStr]
  | some v => simp [minutesField, h, jsOrStr, toLocaleString_ne_empty v]

theorem priceField_eq (c : CreatorDetails) :
    priceField c =
      match c.pricePerMinute with
      | none => "N/A"
      | some v => toFixed2 v := by
  cases h : c.pricePerMinute with
  | none => simp [priceField, h, jsOrStr]
  | some v => simp [priceField, h, jsOrStr, toFixed2_ne_empty v]

theorem marketCapField_eq (c : CreatorDetails) :
    marketCapField c =
      match c.marketCap with
      | none => "N/A"
      | some v => toLocaleString v := by
  cases h : c.marketCap with
  | none => simp [marketCapField, h, jsOrStr]
  | some v => simp [marketCapField, h, jsOrStr, toLocaleString_ne_empty v]

theorem minutesField_na_iff (c : CreatorDetails) :
    minutesField c = "N/A" ↔ c.minutesPurchased = none := by
  rw [minutesField_eq]
  cases h : c.minutesPurchased with
  | none => simp
  | some v => simp [toLocaleString_ne_NA v]

theorem priceField_na_iff (c : CreatorDetails) :
    priceField c = "N/A" ↔ c.pricePerMinute = none := by
  rw [priceField_eq]
  cases h : c.pricePerMinute with
  | none => simp
  | some v => simp [toFixed2_ne_NA v]

theorem marketCapField_na_iff (c : CreatorDetails) :
    marketCapField c = "N/A" ↔ c.marketCap = none := by
  rw [marketCapField_eq]
  cases h : c.marketCap with
  | none => simp
  | some v => simp [toLocaleString_ne_NA v]

/-- A record whose three numeric fields are all the default-indicating `0`
(what the detail extractor stores when a label is absent). -/
def zeroCreator : CreatorDetails :=
  ⟨"Zero", "u0", some 0, some 0, some 0⟩

/-- C9 (counterexample): a record whose fields hold the default-indicating
value `0` renders as `0` / `$0.00` / `$0`, not as `N/A` — the block contains
no `'N'` at all; `(0).toLocaleString()` is `"0"`, a truthy string, so the
`|| "N/A"` fallback never fires on a present `0`. -/
theorem spec_C9_counterexample :
    renderCreatorBlock zeroCreator =
      "Creator: Zero\nURL: u0\nMinutes Purchased: 0\nPrice per Minute: $0.00\nMarket Cap: $0\n--------------------------------------------------\n" ∧
    ('N' : Char) ∉ (renderCreatorBlock zeroCreator).data := by
  decide

/-- C9 (amended): in every rendered entity block, each numeric column shows
`N/A` exactly when its field is absent from the stored record
(`undefined`/`null`, e.g. a persisted `NaN`), and shows the formatted value
otherwise — thousands-grouped for minutes and market cap, two decimals for
price; a stored `0` is formatted, not replaced by `N/A`. -/
theorem spec_C9_na_only_when_field_absent (c : CreatorDetails) :
    renderCreatorBlock c =
      "Creator: " ++ c.name ++ "\n" ++
      ("URL: " ++ c.url ++ "\n") ++
      ("Minutes Purchased: " ++
        (match c.minutesPurchased with
         | none => "N/A"
         | some v => toLocaleString v) ++ "\n") ++
      ("Price per Minute: $" ++
        (match c.pricePerMinute with
         | none => "N/A"
         | some v => toFixed2 v) ++ "\n") ++
      ("Market Cap: $" ++
        (match c.marketCap with
         | none => "N/A"
         | some v => toLocaleString v) ++ "\n") ++
      (repeatChar '-' 50 ++ "\n") ∧
    (minutesField c = "N/A" ↔ c.minutesPurchased = none) ∧
    (priceField c = "N/A" ↔ c.pricePerMinute = none) ∧
    (marketCapField c = "N/A" ↔ c.marketCap = none) := by
  refine ⟨?_, minutesField_na_iff c, priceField_na_iff c, marketCapField_na_iff c⟩
  rw [renderCreatorBlock, minutesField_eq, priceField_eq, marketCapField_eq]
